import Mathlib

/-!
Verification of the annotated-resource walker and batch-splitting logic of the
orthanc_utilities repository.

The walker `extract_annotated_studies` (orthanc_instance_uids.py) loops over all
studies of an Orthanc server, keeps the studies carrying attachment "9999"
(the annotation marker), reads the annotation data to get the referenced
instance IDs (each key carries a ":0"-style suffix that the code removes by
cutting the last two characters), fetches the study's PatientID / PatientName
tags (spaces replaced by underscores), optionally skips a study whose PatientID
contains an ignore string (case-insensitive substring test), and then walks the
study's series and instances, emitting the SOPInstanceUID of every instance
whose ID occurs in the annotation set, together with the patient ID and name.

The splitting logic `split_intervals` / `np.split` (orthanc_lists_to_annotate.py)
chunks a table of n rows into consecutive batches of size chunk_size.

The remote server is modelled as a record of injected read-only lookup
functions, exactly the data the Python code reads from the REST endpoints.
Python dictionaries become association lists (`List.lookup`), a failed
dictionary access becomes `Except.error` carrying the missing key, mirroring
Python's KeyError which names only the key.
-/

namespace OrthancUtils

/-- Python's `KeyError(key)`: raised by a failed dictionary access; its payload
is the missing key and nothing else. -/
structure KeyError where
  key : String
deriving DecidableEq, Repr

/-- The part of `GET /studies/{id}` that the walker reads:
`PatientMainDicomTags` (an association list of tag name to value) and the list
`Series` of child series IDs. -/
structure StudyInfo where
  patientTags : List (String × String)
  series : List String
deriving DecidableEq, Repr

/-- In-memory model of the Orthanc server REST endpoints read by
`extract_annotated_studies`: each field is one of the injected fetch functions.
`annotationData` is the JSON dictionary of attachment 9999, a mapping from
suffixed instance ID to a truthiness value (modelled as `Bool`). -/
structure Server where
  studies : List String
  attachments : String → List String
  annotationData : String → List (String × Bool)
  studyInfo : String → StudyInfo
  seriesInstances : String → List String
  instanceTags : String → List (String × String)

/-- Python dictionary access `d[k]` on an association list: the value when the
key is present, otherwise `KeyError k`. -/
def lookupTag (tags : List (String × String)) (k : String) : Except KeyError String :=
  match tags.lookup k with
  | some v => Except.ok v
  | none => Except.error ⟨k⟩

/-- Python `uuid[:-2]`: the string with its last two characters removed
(empty when the string has fewer than two characters). -/
def cut2 (s : String) : String :=
  String.mk s.toList.dropLast.dropLast

/-- Python `s.replace(' ', '_')`: every space character becomes an underscore. -/
def underscoreSpaces (s : String) : String :=
  String.mk (s.toList.map (fun c => if c = ' ' then '_' else c))

/-- Python `s.lower()` (ASCII case folding, the range used by the scripts). -/
def strLower (s : String) : String :=
  String.mk (s.toList.map Char.toLower)

/-- Python `needle in hay` on strings: contiguous substring test. -/
def containsSub (hay needle : String) : Bool :=
  hay.toList.tails.any (fun t => needle.toList.isPrefixOf t)

/-- Python `if ignore_str and ignore_str.lower() in patient_id.lower()`:
`None` and the empty string are falsy, otherwise a case-insensitive substring
test of the ignore string against the (already underscore-replaced) patient
ID. -/
def ignoreMatches (ignoreStr : Option String) (patientId : String) : Bool :=
  match ignoreStr with
  | none => false
  | some s => s ≠ "" && containsSub (strLower patientId) (strLower s)

/-- The instance-ID list distilled from the annotation attachment data: the
keys with truthy values, each with its last two characters cut off
(lines 71-74 of orthanc_instance_uids.py). -/
def annUuids (srv : Server) (study : String) : List String :=
  ((srv.annotationData study).filter (fun kv => kv.2)).map (fun kv => cut2 kv.1)

/-- The three output lists of the walker, in the order the Python code builds
them: `annotated_instances` (SOPInstanceUIDs), `patient_ids`, `patient_names`. -/
structure Lists3 where
  annotated_instances : List String
  patient_ids : List String
  patient_names : List String
deriving DecidableEq, Repr

/-- The innermost loop of `extract_annotated_studies` (lines 93-100): for each
instance of a series, skip it unless its ID is in the annotation UUID list,
otherwise fetch its tags and append SOPInstanceUID, patient ID and patient
name to the three accumulator lists. A missing SOPInstanceUID tag aborts with
the corresponding KeyError. -/
def loopInstances (srv : Server) (patientId patientName : String) (uuids : List String)
    (insts : List String) (acc : Lists3) : Except KeyError Lists3 :=
  match insts with
  | [] => Except.ok acc
  | i :: rest =>
    if uuids.contains i then
      match lookupTag (srv.instanceTags i) "SOPInstanceUID" with
      | Except.error e => Except.error e
      | Except.ok uid =>
        loopInstances srv patientId patientName uuids rest
          ⟨acc.annotated_instances ++ [uid], acc.patient_ids ++ [patientId],
           acc.patient_names ++ [patientName]⟩
    else
      loopInstances srv patientId patientName uuids rest acc

/-- The series loop of `extract_annotated_studies` (lines 88-100): fetch each
series' instance list and run the instance loop on it. -/
def loopSeries (srv : Server) (patientId patientName : String) (uuids : List String)
    (sers : List String) (acc : Lists3) : Except KeyError Lists3 :=
  match sers with
  | [] => Except.ok acc
  | se :: rest =>
    match loopInstances srv patientId patientName uuids (srv.seriesInstances se) acc with
    | Except.error e => Except.error e
    | Except.ok acc1 => loopSeries srv patientId patientName uuids rest acc1

/-- The body of the study loop (lines 65-100): skip the study unless attachment
"9999" exists; read the annotation data and cut the key suffixes; fetch the
study info and the PatientID and PatientName tags (spaces to underscores),
aborting with KeyError if one is missing; skip the study if the ignore string
matches the patient ID; otherwise run the series loop. -/
def processStudyAcc (srv : Server) (ignoreStr : Option String) (study : String)
    (acc : Lists3) : Except KeyError Lists3 :=
  if "9999" ∈ srv.attachments study then
    let uuids := annUuids srv study
    match lookupTag (srv.studyInfo study).patientTags "PatientID" with
    | Except.error e => Except.error e
    | Except.ok pidRaw =>
      match lookupTag (srv.studyInfo study).patientTags "PatientName" with
      | Except.error e => Except.error e
      | Except.ok pnameRaw =>
        let patientId := underscoreSpaces pidRaw
        let patientName := underscoreSpaces pnameRaw
        if ignoreMatches ignoreStr patientId then Except.ok acc
        else loopSeries srv patientId patientName uuids (srv.studyInfo study).series acc
  else Except.ok acc

/-- The study loop of `extract_annotated_studies` (lines 64-100), threading the
three accumulator lists through every study. -/
def loopStudies (srv : Server) (ignoreStr : Option String) (studies : List String)
    (acc : Lists3) : Except KeyError Lists3 :=
  match studies with
  | [] => Except.ok acc
  | st :: rest =>
    match processStudyAcc srv ignoreStr st acc with
    | Except.error e => Except.error e
    | Except.ok acc1 => loopStudies srv ignoreStr rest acc1

/-- `extract_annotated_studies` (orthanc_instance_uids.py, lines 36-102): the
full walk over all studies of the server, starting from three empty lists. -/
def extract_annotated_studies (srv : Server) (ignoreStr : Option String) :
    Except KeyError Lists3 :=
  loopStudies srv ignoreStr srv.studies ⟨[], [], []⟩

/-! ### Triple-valued reformulation

The same walk, producing a single list of MatchResult triples
(SOPInstanceUID, patient ID, patient name) instead of three parallel
accumulator lists. `extract_eq_walkStudies` below proves the two renderings
agree; general theorems are proved on this layer and transported. -/

/-- One output row: (SOPInstanceUID, PatientID, PatientName). -/
abbrev MatchResult := String × String × String

/-- Triple-valued form of `loopInstances`. -/
def emitInstances (srv : Server) (patientId patientName : String) (uuids : List String)
    (insts : List String) : Except KeyError (List MatchResult) :=
  match insts with
  | [] => Except.ok []
  | i :: rest =>
    if uuids.contains i then
      match lookupTag (srv.instanceTags i) "SOPInstanceUID" with
      | Except.error e => Except.error e
      | Except.ok uid =>
        match emitInstances srv patientId patientName uuids rest with
        | Except.error e => Except.error e
        | Except.ok ts => Except.ok ((uid, patientId, patientName) :: ts)
    else emitInstances srv patientId patientName uuids rest

/-- Triple-valued form of `loopSeries`. -/
def emitSeries (srv : Server) (patientId patientName : String) (uuids : List String)
    (sers : List String) : Except KeyError (List MatchResult) :=
  match sers with
  | [] => Except.ok []
  | se :: rest =>
    match emitInstances srv patientId patientName uuids (srv.seriesInstances se) with
    | Except.error e => Except.error e
    | Except.ok ts =>
      match emitSeries srv patientId patientName uuids rest with
      | Except.error e => Except.error e
      | Except.ok us => Except.ok (ts ++ us)

/-- Triple-valued form of `processStudyAcc`: the MatchResults of one study. -/
def processStudy (srv : Server) (ignoreStr : Option String) (study : String) :
    Except KeyError (List MatchResult) :=
  if "9999" ∈ srv.attachments study then
    let uuids := annUuids srv study
    match lookupTag (srv.studyInfo study).patientTags "PatientID" with
    | Except.error e => Except.error e
    | Except.ok pidRaw =>
      match lookupTag (srv.studyInfo study).patientTags "PatientName" with
      | Except.error e => Except.error e
      | Except.ok pnameRaw =>
        let patientId := underscoreSpaces pidRaw
        let patientName := underscoreSpaces pnameRaw
        if ignoreMatches ignoreStr patientId then Except.ok []
        else emitSeries srv patientId patientName uuids (srv.studyInfo study).series
  else Except.ok []

/-- Triple-valued form of `loopStudies`. -/
def walkStudies (srv : Server) (ignoreStr : Option String) (studies : List String) :
    Except KeyError (List MatchResult) :=
  match studies with
  | [] => Except.ok []
  | st :: rest =>
    match processStudy srv ignoreStr st with
    | Except.error e => Except.error e
    | Except.ok ts =>
      match walkStudies srv ignoreStr rest with
      | Except.error e => Except.error e
      | Except.ok us => Except.ok (ts ++ us)

/-- Appending the projections of a triple list to the three accumulators. -/
def append3 (acc : Lists3) (ts : List MatchResult) : Lists3 :=
  ⟨acc.annotated_instances ++ ts.map (fun t => t.1),
   acc.patient_ids ++ ts.map (fun t => t.2.1),
   acc.patient_names ++ ts.map (fun t => t.2.2)⟩

/-- The SOPInstanceUID an instance would contribute, as a total function
(empty string when the tag is absent; only used under success hypotheses). -/
def uidOf (srv : Server) (i : String) : String :=
  match (srv.instanceTags i).lookup "SOPInstanceUID" with
  | some v => v
  | none => ""

/-- The instance IDs of one study that the walker matches: the concatenation,
over the study's series, of each series' instances filtered by membership in
the annotation UUID list. -/
def studyMatched (srv : Server) (study : String) : List String :=
  ((srv.studyInfo study).series).flatMap
    (fun se => (srv.seriesInstances se).filter (fun i => (annUuids srv study).contains i))

/-- Every instance ID listed under any series of any study, in traversal
order (no annotation filtering). -/
def globalVisited (srv : Server) : List String :=
  srv.studies.flatMap (fun st => ((srv.studyInfo st).series).flatMap srv.seriesInstances)

/-! ### Batch splitting (orthanc_lists_to_annotate.py)

`split_intervals` computes `range(chunk_size, ceil(n / chunk_size) * chunk_size,
chunk_size)` for a table of `n` rows, and `main` passes those boundaries to
`np.split`, which cuts the table into the slices `[0:i1], [i1:i2], ..., [ik:n]`.
The table is modelled as a list of rows of an arbitrary type. -/

/-- Python `range(start, stop, step)` for a positive step: the arithmetic
progression from `start` below `stop`. -/
def pyRange (start stop step : Nat) : List Nat :=
  List.range' start ((stop - start + step - 1) / step) step

/-- `split_intervals` (orthanc_lists_to_annotate.py, lines 56-66) on a table of
`nrows` rows: `range(chunk_size, ceil(nrows / chunk_size) * chunk_size,
chunk_size)`. -/
def split_intervals (nrows chunkSize : Nat) : List Nat :=
  pyRange chunkSize (((nrows + chunkSize - 1) / chunkSize) * chunkSize) chunkSize

/-- Worker for `npSplit`: `prev` is the left edge of the current slice. -/
def npSplitGo (l : List α) (prev : Nat) : List Nat → List (List α)
  | [] => [l.drop prev]
  | i :: rest => (l.drop prev).take (i - prev) :: npSplitGo l i rest

/-- `np.split(l, idxs)`: the consecutive slices of `l` cut at the given
indices. -/
def npSplit (l : List α) (idxs : List Nat) : List (List α) :=
  npSplitGo l 0 idxs

/-- The split operation of `main` (orthanc_lists_to_annotate.py, lines
124-138): split the row list at the boundaries computed by `split_intervals`. -/
def split_dfs (l : List α) (chunkSize : Nat) : List (List α) :=
  npSplit l (split_intervals l.length chunkSize)

/-! ### Big-step relation for the walk

An inductive description of the study loop, used to state determinism of the
walk (§5 of the spec: no shared mutable state, idempotent given unchanged
server data). -/

/-- Big-step evaluation relation of the study loop: `WalkFrom srv ig studies r`
holds when processing the given study list against server `srv` can produce
outcome `r`. -/
inductive WalkFrom (srv : Server) (ignoreStr : Option String) :
    List String → Except KeyError (List MatchResult) → Prop
  | nil : WalkFrom srv ignoreStr [] (Except.ok [])
  | consErr {st : String} {rest : List String} {e : KeyError} :
      processStudy srv ignoreStr st = Except.error e →
      WalkFrom srv ignoreStr (st :: rest) (Except.error e)
  | consOkErr {st : String} {rest : List String} {ts : List MatchResult} {e : KeyError} :
      processStudy srv ignoreStr st = Except.ok ts →
      WalkFrom srv ignoreStr rest (Except.error e) →
      WalkFrom srv ignoreStr (st :: rest) (Except.error e)
  | consOk {st : String} {rest : List String} {ts us : List MatchResult} :
      processStudy srv ignoreStr st = Except.ok ts →
      WalkFrom srv ignoreStr rest (Except.ok us) →
      WalkFrom srv ignoreStr (st :: rest) (Except.ok (ts ++ us))

/-- Stripping function written from the spec's words, for comparison with the
code's `cut2`: remove a trailing ":N" suffix, N an arbitrary non-negative
integer, when one is present; otherwise return the string unchanged. -/
def specStripColonNum (s : String) : String :=
  let r := s.toList.reverse
  let ds := r.takeWhile (fun c => c.isDigit)
  match r.drop ds.length with
  | ':' :: tail => if ds.isEmpty then s else String.mk tail.reverse
  | _ => s

/-! ### Concrete server snapshots used by the closed theorems -/

/-- The spec's end-to-end scenario: study s1 carries the annotation marker with
keys "i1:0" and "i2:0" truthy; its single series r1 lists instances i1, i2, i3;
i1 and i2 carry SOPInstanceUIDs u1 and u2. -/
def srvS1 : Server where
  studies := ["s1"]
  attachments := fun st => if st = "s1" then ["9999"] else []
  annotationData := fun st => if st = "s1" then [("i1:0", true), ("i2:0", true)] else []
  studyInfo := fun st =>
    if st = "s1" then ⟨[("PatientID", "pid1"), ("PatientName", "pname1")], ["r1"]⟩
    else ⟨[], []⟩
  seriesInstances := fun se => if se = "r1" then ["i1", "i2", "i3"] else []
  instanceTags := fun i =>
    if i = "i1" then [("SOPInstanceUID", "u1")]
    else if i = "i2" then [("SOPInstanceUID", "u2")]
    else [("SOPInstanceUID", "u3")]

/-- Server whose study st1 carries the annotation marker but whose tags lack
PatientID: the walk hits a missing required field. -/
def srvMissingPid : Server where
  studies := ["st1"]
  attachments := fun _ => ["9999"]
  annotationData := fun _ => [("i1:0", true)]
  studyInfo := fun _ => ⟨[("PatientName", "pn")], ["r1"]⟩
  seriesInstances := fun _ => ["i1"]
  instanceTags := fun _ => [("SOPInstanceUID", "u1")]

/-- Server whose study st1 carries the annotation marker and a PatientID tag
but no PatientName tag. -/
def srvMissingPname : Server where
  studies := ["st1"]
  attachments := fun _ => ["9999"]
  annotationData := fun _ => [("i1:0", true)]
  studyInfo := fun _ => ⟨[("PatientID", "pid")], ["r1"]⟩
  seriesInstances := fun _ => ["i1"]
  instanceTags := fun _ => [("SOPInstanceUID", "u1")]

/-- Server whose instance tag mapping lacks SOPInstanceUID. -/
def srvMissingUid : Server where
  studies := ["st1"]
  attachments := fun _ => ["9999"]
  annotationData := fun _ => [("i1:0", true)]
  studyInfo := fun _ => ⟨[("PatientID", "pid"), ("PatientName", "pn")], ["r1"]⟩
  seriesInstances := fun _ => ["i1"]
  instanceTags := fun _ => []

/-- Server whose annotation data uses a two-digit ":10" suffix on key "i:10",
while the series lists the raw instance ID "i". -/
def srvColonTen : Server where
  studies := ["s1"]
  attachments := fun _ => ["9999"]
  annotationData := fun _ => [("i:10", true)]
  studyInfo := fun _ => ⟨[("PatientID", "pid"), ("PatientName", "pn")], ["r1"]⟩
  seriesInstances := fun _ => ["i"]
  instanceTags := fun _ => [("SOPInstanceUID", "u")]

/-- Server with an annotated study whose PatientID is "patient_anon_001" and
one matching instance. -/
def srvAnon : Server where
  studies := ["s1"]
  attachments := fun _ => ["9999"]
  annotationData := fun _ => [("i1:0", true)]
  studyInfo := fun _ => ⟨[("PatientID", "patient_anon_001"), ("PatientName", "pn")], ["r1"]⟩
  seriesInstances := fun _ => ["i1"]
  instanceTags := fun _ => [("SOPInstanceUID", "u1")]

/-- Server with two studies: s1 has no annotation marker, s2 has one but its
annotation set is disjoint from the instances of its series. -/
def srvNoMatch : Server where
  studies := ["s1", "s2"]
  attachments := fun st => if st = "s2" then ["9999"] else []
  annotationData := fun st => if st = "s2" then [("j1:0", true)] else []
  studyInfo := fun st =>
    if st = "s2" then ⟨[("PatientID", "pid2"), ("PatientName", "pn2")], ["r2"]⟩
    else ⟨[("PatientID", "pid1"), ("PatientName", "pn1")], ["r1"]⟩
  seriesInstances := fun se => if se = "r2" then ["k1", "k2"] else ["m1"]
  instanceTags := fun _ => [("SOPInstanceUID", "u")]

/-- Server whose study has PatientID "A B" and PatientName "N M" (with spaces)
and one matching instance, to exercise the underscore replacement. -/
def srvSpaces : Server where
  studies := ["s1"]
  attachments := fun _ => ["9999"]
  annotationData := fun _ => [("i1:0", true)]
  studyInfo := fun _ => ⟨[("PatientID", "A B"), ("PatientName", "N M")], ["r1"]⟩
  seriesInstances := fun _ => ["i1"]
  instanceTags := fun _ => [("SOPInstanceUID", "u1")]

/-! ### Equivalence of the accumulator rendering and the triple rendering -/

theorem append3_nil (acc : Lists3) : append3 acc [] = acc := by
  simp [append3]

theorem append3_append (acc : Lists3) (ts us : List MatchResult) :
    append3 (append3 acc ts) us = append3 acc (ts ++ us) := by
  simp [append3, List.append_assoc]

theorem append3_push (acc : Lists3) (t : MatchResult) (ts : List MatchResult) :
    append3 ⟨acc.annotated_instances ++ [t.1], acc.patient_ids ++ [t.2.1],
      acc.patient_names ++ [t.2.2]⟩ ts = append3 acc (t :: ts) := by
  simp [append3, List.append_assoc]

theorem loopInstances_eq (srv : Server) (patientId patientName : String)
    (uuids : List String) (insts : List String) (acc : Lists3) :
    loopInstances srv patientId patientName uuids insts acc =
      (emitInstances srv patientId patientName uuids insts).map (append3 acc) := by
  induction insts generalizing acc with
  | nil => simp [loopInstances, emitInstances, append3_nil, Except.map]
  | cons i rest ih =>
    simp only [loopInstances, emitInstances]
    by_cases hc : uuids.contains i
    · simp only [hc, if_true]
      cases hl : lookupTag (srv.instanceTags i) "SOPInstanceUID" with
      | error e => simp [Except.map]
      | ok uid =>
        dsimp only
        rw [ih]
        cases he : emitInstances srv patientId patientName uuids rest with
        | error e => simp [Except.map]
        | ok ts =>
          simp only [Except.map]
          rw [append3_push acc (uid, patientId, patientName) ts]
    · simp only [hc, if_false]
      exact ih acc

theorem loopSeries_eq (srv : Server) (patientId patientName : String)
    (uuids : List String) (sers : List String) (acc : Lists3) :
    loopSeries srv patientId patientName uuids sers acc =
      (emitSeries srv patientId patientName uuids sers).map (append3 acc) := by
  induction sers generalizing acc with
  | nil => simp [loopSeries, emitSeries, append3_nil, Except.map]
  | cons se rest ih =>
    simp only [loopSeries, emitSeries]
    rw [loopInstances_eq]
    cases he : emitInstances srv patientId patientName uuids (srv.seriesInstances se) with
    | error e => simp [Except.map]
    | ok ts =>
      simp only [Except.map]
      rw [ih]
      cases hs : emitSeries srv patientId patientName uuids rest with
      | error e => simp [Except.map]
      | ok us => simp [Except.map, append3_append]

theorem processStudyAcc_eq (srv : Server) (ignoreStr : Option String) (study : String)
    (acc : Lists3) :
    processStudyAcc srv ignoreStr study acc =
      (processStudy srv ignoreStr study).map (append3 acc) := by
  simp only [processStudyAcc, processStudy]
  by_cases h9 : "9999" ∈ srv.attachments study
  · simp only [h9, if_true]
    cases h1 : lookupTag (srv.studyInfo study).patientTags "PatientID" with
    | error e => simp [Except.map]
    | ok pidRaw =>
      cases h2 : lookupTag (srv.studyInfo study).patientTags "PatientName" with
      | error e => simp [Except.map]
      | ok pnameRaw =>
        by_cases hig : ignoreMatches ignoreStr (underscoreSpaces pidRaw)
        · simp [hig, Except.map, append3_nil]
        · simp only [hig, if_false]
          exact loopSeries_eq srv (underscoreSpaces pidRaw) (underscoreSpaces pnameRaw)
            (annUuids srv study) (srv.studyInfo study).series acc
  · simp [h9, Except.map, append3_nil]

theorem loopStudies_eq (srv : Server) (ignoreStr : Option String)
    (studies : List String) (acc : Lists3) :
    loopStudies srv ignoreStr studies acc =
      (walkStudies srv ignoreStr studies).map (append3 acc) := by
  induction studies generalizing acc with
  | nil => simp [loopStudies, walkStudies, append3_nil, Except.map]
  | cons st rest ih =>
    simp only [loopStudies, walkStudies]
    rw [processStudyAcc_eq]
    cases hp : processStudy srv ignoreStr st with
    | error e => simp [Except.map]
    | ok ts =>
      simp only [Except.map]
      rw [ih]
      cases hw : walkStudies srv ignoreStr rest with
      | error e => simp [Except.map]
      | ok us => simp [Except.map, append3_append]

/-- The faithful accumulator rendering of `extract_annotated_studies` agrees
with the triple rendering: the three output lists are the three projections of
the sequence of emitted MatchResults. -/
theorem extract_eq_walkStudies (srv : Server) (ignoreStr : Option String) :
    extract_annotated_studies srv ignoreStr =
      (walkStudies srv ignoreStr srv.studies).map
        (fun ts => ⟨ts.map (fun t => t.1), ts.map (fun t => t.2.1),
          ts.map (fun t => t.2.2)⟩) := by
  rw [extract_annotated_studies, loopStudies_eq]
  cases hw : walkStudies srv ignoreStr srv.studies with
  | error e => simp [Except.map]
  | ok ts => simp [Except.map, append3]

/-! ### Structural lemmas about the walk -/

theorem lookupTag_ok {tags : List (String × String)} {k v : String}
    (h : lookupTag tags k = Except.ok v) : tags.lookup k = some v := by
  unfold lookupTag at h
  cases hl : tags.lookup k with
  | none => rw [hl] at h; exact absurd h (by simp)
  | some w => rw [hl] at h; simpa using h

theorem uidOf_of_lookup {srv : Server} {i uid : String}
    (h : lookupTag (srv.instanceTags i) "SOPInstanceUID" = Except.ok uid) :
    uidOf srv i = uid := by
  unfold uidOf
  rw [lookupTag_ok h]

/-- The SOPInstanceUID column emitted by the instance loop is exactly the
matched instances mapped through their SOPInstanceUID tag. -/
theorem emitInstances_map_fst {srv : Server} {patientId patientName : String}
    {uuids insts : List String} {ts : List MatchResult}
    (h : emitInstances srv patientId patientName uuids insts = Except.ok ts) :
    ts.map (fun t => t.1) =
      (insts.filter (fun i => uuids.contains i)).map (uidOf srv) := by
  induction insts generalizing ts with
  | nil =>
    simp only [emitInstances] at h
    cases h
    simp
  | cons i rest ih =>
    simp only [emitInstances] at h
    by_cases hc : uuids.contains i
    · rw [if_pos hc] at h
      cases hl : lookupTag (srv.instanceTags i) "SOPInstanceUID" with
      | error e => rw [hl] at h; exact absurd h (by simp)
      | ok uid =>
        rw [hl] at h
        cases he : emitInstances srv patientId patientName uuids rest with
        | error e => rw [he] at h; exact absurd h (by simp)
        | ok us =>
          rw [he] at h
          cases h
          rw [List.map_cons, List.filter_cons_of_pos (by exact hc), List.map_cons,
            uidOf_of_lookup hl, ih he]
    · rw [if_neg hc] at h
      simp only [List.filter_cons]
      rw [if_neg (by simpa using hc)]
      exact ih h

/-- Every row emitted by the instance loop carries the patient ID and name it
was called with. -/
theorem emitInstances_snd {srv : Server} {patientId patientName : String}
    {uuids insts : List String} {ts : List MatchResult}
    (h : emitInstances srv patientId patientName uuids insts = Except.ok ts) :
    ∀ t ∈ ts, t.2.1 = patientId ∧ t.2.2 = patientName := by
  induction insts generalizing ts with
  | nil =>
    simp only [emitInstances] at h
    cases h
    simp
  | cons i rest ih =>
    simp only [emitInstances] at h
    by_cases hc : uuids.contains i
    · rw [if_pos hc] at h
      cases hl : lookupTag (srv.instanceTags i) "SOPInstanceUID" with
      | error e => rw [hl] at h; exact absurd h (by simp)
      | ok uid =>
        rw [hl] at h
        cases he : emitInstances srv patientId patientName uuids rest with
        | error e => rw [he] at h; exact absurd h (by simp)
        | ok us =>
          rw [he] at h
          cases h
          intro t ht
          rcases List.mem_cons.mp ht with h1 | h1
          · subst h1; exact ⟨rfl, rfl⟩
          · exact ih he t h1
    · rw [if_neg hc] at h
      exact ih h

/-- The SOPInstanceUID column emitted by the series loop is the concatenation
over the series of the matched instances, mapped through their tag. -/
theorem emitSeries_map_fst {srv : Server} {patientId patientName : String}
    {uuids sers : List String} {ts : List MatchResult}
    (h : emitSeries srv patientId patientName uuids sers = Except.ok ts) :
    ts.map (fun t => t.1) =
      (sers.flatMap
        (fun se => (srv.seriesInstances se).filter (fun i => uuids.contains i))).map
        (uidOf srv) := by
  induction sers generalizing ts with
  | nil =>
    simp only [emitSeries] at h
    cases h
    simp
  | cons se rest ih =>
    simp only [emitSeries] at h
    cases he : emitInstances srv patientId patientName uuids (srv.seriesInstances se) with
    | error e => rw [he] at h; exact absurd h (by simp)
    | ok us =>
      rw [he] at h
      cases hs : emitSeries srv patientId patientName uuids rest with
      | error e => rw [hs] at h; exact absurd h (by simp)
      | ok vs =>
        rw [hs] at h
        cases h
        simp only [List.map_append, List.flatMap_cons, emitInstances_map_fst he, ih hs]

theorem emitSeries_snd {srv : Server} {patientId patientName : String}
    {uuids sers : List String} {ts : List MatchResult}
    (h : emitSeries srv patientId patientName uuids sers = Except.ok ts) :
    ∀ t ∈ ts, t.2.1 = patientId ∧ t.2.2 = patientName := by
  induction sers generalizing ts with
  | nil =>
    simp only [emitSeries] at h
    cases h
    simp
  | cons se rest ih =>
    simp only [emitSeries] at h
    cases he : emitInstances srv patientId patientName uuids (srv.seriesInstances se) with
    | error e => rw [he] at h; exact absurd h (by simp)
    | ok us =>
      rw [he] at h
      cases hs : emitSeries srv patientId patientName uuids rest with
      | error e => rw [hs] at h; exact absurd h (by simp)
      | ok vs =>
        rw [hs] at h
        cases h
        intro t ht
        rcases List.mem_append.mp ht with h1 | h1
        · exact emitInstances_snd he t h1
        · exact ih hs t h1

/-- With no matching instance, the instance loop emits nothing and performs no
tag fetch, so it cannot fail. -/
theorem emitInstances_no_match {srv : Server} {patientId patientName : String}
    {uuids insts : List String}
    (h : ∀ i ∈ insts, uuids.contains i = false) :
    emitInstances srv patientId patientName uuids insts = Except.ok [] := by
  induction insts with
  | nil => simp [emitInstances]
  | cons i rest ih =>
    simp only [emitInstances]
    have hi : uuids.contains i = false := h i (List.mem_cons_self i rest)
    simp only [hi, Bool.false_eq_true, if_false]
    exact ih (fun j hj => h j (List.mem_cons_of_mem i hj))

theorem emitSeries_no_match {srv : Server} {patientId patientName : String}
    {uuids sers : List String}
    (h : ∀ se ∈ sers, ∀ i ∈ srv.seriesInstances se, uuids.contains i = false) :
    emitSeries srv patientId patientName uuids sers = Except.ok [] := by
  induction sers with
  | nil => simp [emitSeries]
  | cons se rest ih =>
    simp only [emitSeries]
    rw [emitInstances_no_match (h se (List.mem_cons_self se rest))]
    rw [ih (fun se2 h2 => h se2 (List.mem_cons_of_mem se h2))]
    rfl

theorem flatMap_sublist_flatMap {α β : Type} (l : List α) (f g : α → List β)
    (h : ∀ a, (f a).Sublist (g a)) : (l.flatMap f).Sublist (l.flatMap g) := by
  induction l with
  | nil => simp
  | cons a rest ih =>
    simp only [List.flatMap_cons]
    exact List.Sublist.append (h a) ih

/-- The instance IDs matched in one study form a sublist of all instance IDs
listed under the study's series. -/
theorem studyMatched_sublist (srv : Server) (st : String) :
    (studyMatched srv st).Sublist
      (((srv.studyInfo st).series).flatMap srv.seriesInstances) := by
  unfold studyMatched
  exact flatMap_sublist_flatMap _ _ _ (fun se => List.filter_sublist _)

/-- The SOPInstanceUID column of one study's output is the image under
`uidOf` of a sublist of the instance IDs listed under the study's series. -/
theorem processStudy_map_fst {srv : Server} {ignoreStr : Option String}
    {st : String} {ts : List MatchResult}
    (h : processStudy srv ignoreStr st = Except.ok ts) :
    ∃ l : List String,
      l.Sublist (((srv.studyInfo st).series).flatMap srv.seriesInstances) ∧
        ts.map (fun t => t.1) = l.map (uidOf srv) := by
  unfold processStudy at h
  by_cases h9 : "9999" ∈ srv.attachments st
  · rw [if_pos h9] at h
    cases h1 : lookupTag (srv.studyInfo st).patientTags "PatientID" with
    | error e => rw [h1] at h; exact absurd h (by simp)
    | ok pidRaw =>
      rw [h1] at h
      cases h2 : lookupTag (srv.studyInfo st).patientTags "PatientName" with
      | error e => rw [h2] at h; exact absurd h (by simp)
      | ok pnameRaw =>
        rw [h2] at h
        dsimp only at h
        by_cases hig : ignoreMatches ignoreStr (underscoreSpaces pidRaw)
        · rw [if_pos hig] at h
          cases h
          exact ⟨[], List.nil_sublist _, by simp⟩
        · rw [if_neg hig] at h
          refine ⟨studyMatched srv st, studyMatched_sublist srv st, ?_⟩
          rw [emitSeries_map_fst h]
          rfl
  · rw [if_neg h9] at h
    cases h
    exact ⟨[], List.nil_sublist _, by simp⟩

/-- The SOPInstanceUID column of the whole walk is the image under `uidOf` of
a sublist of all instance IDs listed anywhere on the server. -/
theorem walkStudies_map_fst {srv : Server} {ignoreStr : Option String}
    {studies : List String} {ts : List MatchResult}
    (h : walkStudies srv ignoreStr studies = Except.ok ts) :
    ∃ l : List String,
      l.Sublist (studies.flatMap
        (fun st => ((srv.studyInfo st).series).flatMap srv.seriesInstances)) ∧
        ts.map (fun t => t.1) = l.map (uidOf srv) := by
  induction studies generalizing ts with
  | nil =>
    simp only [walkStudies] at h
    cases h
    exact ⟨[], List.nil_sublist _, by simp⟩
  | cons st rest ih =>
    simp only [walkStudies] at h
    cases hp : processStudy srv ignoreStr st with
    | error e => rw [hp] at h; exact absurd h (by simp)
    | ok us =>
      rw [hp] at h
      cases hw : walkStudies srv ignoreStr rest with
      | error e => rw [hw] at h; exact absurd h (by simp)
      | ok vs =>
        rw [hw] at h
        cases h
        obtain ⟨l1, hs1, he1⟩ := processStudy_map_fst hp
        obtain ⟨l2, hs2, he2⟩ := ih hw
        refine ⟨l1 ++ l2, ?_, ?_⟩
        · simpa using List.Sublist.append hs1 hs2
        · simp [he1, he2]

/-- The function `walkStudies` realizes the big-step relation: the walk always
has at least the outcome computed by the code. -/
theorem walkFrom_total (srv : Server) (ignoreStr : Option String)
    (studies : List String) :
    WalkFrom srv ignoreStr studies (walkStudies srv ignoreStr studies) := by
  induction studies with
  | nil => exact WalkFrom.nil
  | cons st rest ih =>
    cases hp : processStudy srv ignoreStr st with
    | error e =>
      have : walkStudies srv ignoreStr (st :: rest) = Except.error e := by
        simp only [walkStudies, hp]
      rw [this]
      exact WalkFrom.consErr hp
    | ok ts =>
      cases hw : walkStudies srv ignoreStr rest with
      | error e =>
        have : walkStudies srv ignoreStr (st :: rest) = Except.error e := by
          simp only [walkStudies, hp, hw]
        rw [this]
        exact WalkFrom.consOkErr hp (hw ▸ ih)
      | ok us =>
        have : walkStudies srv ignoreStr (st :: rest) = Except.ok (ts ++ us) := by
          simp only [walkStudies, hp, hw]
        rw [this]
        exact WalkFrom.consOk hp (hw ▸ ih)

/-! ### Lemmas about the batch splitting -/

theorem split_intervals_small {n c : Nat} (hc : 0 < c) (h : n ≤ c) :
    split_intervals n c = [] := by
  unfold split_intervals pyRange
  have hm : (n + c - 1) / c < 2 := (Nat.div_lt_iff_lt_mul hc).mpr (by omega)
  have hmc : (n + c - 1) / c * c ≤ 1 * c :=
    Nat.mul_le_mul_right c (by omega)
  have hz : ((n + c - 1) / c * c - c + c - 1) / c = 0 :=
    Nat.div_eq_of_lt (by omega)
  rw [hz]
  rfl

theorem map_sub_range' (a k step c : Nat) :
    (List.range' (a + c) k step).map (fun j => j - c) = List.range' a k step := by
  induction k generalizing a with
  | zero => rfl
  | succ k ih =>
    rw [List.range'_succ, List.range'_succ, List.map_cons]
    have h1 : a + c - c = a := by omega
    have h2 : a + c + step = a + step + c := by omega
    rw [h1, h2, ih (a + step)]

theorem split_intervals_step {n c : Nat} (hc : 0 < c) (h : c < n) :
    split_intervals n c = c :: (split_intervals (n - c) c).map (fun j => j + c) := by
  unfold split_intervals pyRange
  have hq1 : 1 ≤ (n - 1) / c := (Nat.le_div_iff_mul_le hc).mpr (by omega)
  obtain ⟨q, hq⟩ : ∃ q, (n - 1) / c = q + 1 := ⟨(n - 1) / c - 1, by omega⟩
  have hm : (n + c - 1) / c = q + 2 := by
    have he : n + c - 1 = (n - 1) + c := by omega
    rw [he, Nat.add_div_right _ hc, hq]
  have hm2 : (n - c + c - 1) / c = q + 1 := by
    have he : n - c + c - 1 = n - 1 := by omega
    rw [he, hq]
  have hc1 : (c - 1) / c = 0 := Nat.div_eq_of_lt (by omega)
  have hlen1 : ((n + c - 1) / c * c - c + c - 1) / c = q + 1 := by
    rw [hm]
    have f1 : (q + 2) * c = c * (q + 1) + c := by ring
    have e1 : (q + 2) * c - c + c - 1 = (c - 1) + c * (q + 1) := by omega
    rw [e1, Nat.add_mul_div_left _ _ hc, hc1, Nat.zero_add]
  have hlen2 : ((n - c + c - 1) / c * c - c + c - 1) / c = q := by
    rw [hm2]
    have f2 : (q + 1) * c = c * q + c := by ring
    have e2 : (q + 1) * c - c + c - 1 = (c - 1) + c * q := by omega
    rw [e2, Nat.add_mul_div_left _ _ hc, hc1, Nat.zero_add]
  rw [hlen1, hlen2, List.range'_succ]
  congr 1
  have hco : (List.range' c q c).map (fun j => j + c) =
      (List.range' c q c).map (fun j => c + j) := by
    simp [Nat.add_comm]
  rw [hco, List.map_add_range' c c q c]

theorem npSplitGo_shift {α : Type} (l : List α) (c : Nat) :
    ∀ (idxs : List Nat) (prev : Nat),
      npSplitGo l (prev + c) (idxs.map (fun j => j + c)) =
        npSplitGo (l.drop c) prev idxs := by
  intro idxs
  induction idxs with
  | nil =>
    intro prev
    simp only [List.map_nil, npSplitGo, List.drop_drop]
    rw [Nat.add_comm prev c, Nat.add_comm c prev]
  | cons i rest ih =>
    intro prev
    simp only [List.map_cons, npSplitGo, List.drop_drop]
    have h1 : i + c - (prev + c) = i - prev := by omega
    rw [h1, Nat.add_comm prev c, ih i]

theorem split_dfs_base {α : Type} {l : List α} {c : Nat} (hc : 0 < c)
    (h : l.length ≤ c) : split_dfs l c = [l] := by
  unfold split_dfs npSplit
  rw [split_intervals_small hc h]
  simp [npSplitGo]

theorem split_dfs_step {α : Type} {l : List α} {c : Nat} (hc : 0 < c)
    (h : c < l.length) : split_dfs l c = l.take c :: split_dfs (l.drop c) c := by
  unfold split_dfs npSplit
  rw [split_intervals_step hc h]
  simp only [npSplitGo, List.drop_zero, Nat.sub_zero]
  congr 1
  have := npSplitGo_shift l c (split_intervals (l.length - c) c) 0
  rw [Nat.zero_add] at this
  rw [this, List.length_drop]

theorem npSplitGo_ne_nil {α : Type} (l : List α) (prev : Nat) (idxs : List Nat) :
    npSplitGo l prev idxs ≠ [] := by
  cases idxs <;> simp [npSplitGo]

theorem split_dfs_ne_nil {α : Type} (l : List α) (c : Nat) : split_dfs l c ≠ [] :=
  npSplitGo_ne_nil l 0 _

/-- The split at the `split_intervals` boundaries is a partition into
consecutive batches: concatenating the batches restores the row list, every
batch has at most `c` rows, and every batch except possibly the last has
exactly `c` rows. -/
theorem split_dfs_partition {α : Type} (c : Nat) (hc : 0 < c) :
    ∀ (n : Nat) (l : List α), l.length = n →
      (split_dfs l c).flatten = l ∧ (∀ b ∈ split_dfs l c, b.length ≤ c) ∧
        ∀ b ∈ (split_dfs l c).dropLast, b.length = c := by
  intro n
  induction n using Nat.strong_induction_on with
  | _ n ih =>
    intro l hl
    by_cases h : l.length ≤ c
    · rw [split_dfs_base hc h]
      refine ⟨by simp, ?_, by simp⟩
      intro b hb
      rw [List.mem_singleton.mp hb]
      exact h
    · push_neg at h
      have hdrop : (l.drop c).length = n - c := by rw [List.length_drop, hl]
      obtain ⟨ih1, ih2, ih3⟩ := ih (n - c) (by omega) (l.drop c) hdrop
      rw [split_dfs_step hc h]
      refine ⟨?_, ?_, ?_⟩
      · rw [List.flatten_cons, ih1, List.take_append_drop]
      · intro b hb
        rcases List.mem_cons.mp hb with h1 | h1
        · rw [h1, List.length_take]
          omega
        · exact ih2 b h1
      · intro b hb
        rw [List.dropLast_cons_of_ne_nil (split_dfs_ne_nil (l.drop c) c)] at hb
        rcases List.mem_cons.mp hb with h1 | h1
        · rw [h1, List.length_take]
          omega
        · exact ih3 b h1

/-! ### Claim theorems -/

/-- C1: for a walk over study s1 whose annotation attachment maps keys "i1:0"
and "i2:0" to truthy values, where s1 has one series with instances
[i1, i2, i3] in that order and the instance tags give SOPInstanceUIDs "u1" and
"u2" for i1 and i2, the walker emits exactly the ordered sequence
[(u1, PatientID, PatientName), (u2, PatientID, PatientName)]; i3 produces no
result because its ID is not in the annotation set. -/
theorem C1_end_to_end_scenario :
    extract_annotated_studies srvS1 none =
      Except.ok ⟨["u1", "u2"], ["pid1", "pid1"], ["pname1", "pname1"]⟩ := rfl

/-- C3 counterexample: the annotation key "i:10" carries the trailing ":N"
suffix with N = 10; under the claimed stripping it would match the instance
with raw ID "i" (which exists on `srvColonTen` and carries a SOPInstanceUID),
but the code cuts exactly the last two characters, producing "i:", so the walk
emits nothing. -/
theorem C3_counterexample :
    specStripColonNum "i:10" = "i" ∧ cut2 "i:10" = "i:" ∧
      annUuids srvColonTen "s1" = ["i:"] ∧
      extract_annotated_studies srvColonTen none = Except.ok ⟨[], [], []⟩ :=
  ⟨rfl, rfl, rfl, rfl⟩

/-- C3 (amended): for every key of a study's annotation attachment that is
kept, the instance ID used for matching is the key with exactly its last two
characters removed; hence a key of the form x followed by any two characters
(such as ":0") matches an instance whose raw ID is exactly x, while suffixes
":N" with a multi-digit N are not stripped correctly. -/
theorem C3_amended_cut_last_two (x : String) (a b : Char) :
    cut2 (String.mk (x.toList ++ [a, b])) = x := by
  unfold cut2
  have h1 : (String.mk (x.toList ++ [a, b])).toList = x.toList ++ [a, b] := rfl
  rw [h1]
  have h2 : x.toList ++ [a, b] = (x.toList ++ [a]) ++ [b] := by simp
  rw [h2, List.dropLast_concat, List.dropLast_concat]
  cases x
  rfl

/-- C8: for every result table and every chunk size c > 0, splitting the rows
at the `split_intervals` boundaries partitions them into consecutive batches:
concatenating the batches restores the table, each batch has at most c rows,
and every batch except possibly the last has exactly c rows. -/
theorem C8_split_partition {α : Type} (l : List α) (c : Nat) (hc : 0 < c) :
    (split_dfs l c).flatten = l ∧ (∀ b ∈ split_dfs l c, b.length ≤ c) ∧
      ∀ b ∈ (split_dfs l c).dropLast, b.length = c :=
  split_dfs_partition c hc l.length l rfl

/-- Witness for C8 at the concrete table [0, 1, 2, 3, 4] and chunk size 2
(batches [0, 1], [2, 3], [4]). -/
theorem C8_split_partition_witness :
    (split_dfs [0, 1, 2, 3, 4] 2).flatten = [0, 1, 2, 3, 4] ∧
      (∀ b ∈ split_dfs [0, 1, 2, 3, 4] 2, b.length ≤ 2) ∧
      ∀ b ∈ (split_dfs [0, 1, 2, 3, 4] 2).dropLast, b.length = 2 :=
  C8_split_partition [0, 1, 2, 3, 4] 2 (by decide)

/-- C2 counterexample: on a study with resource ID "st1" whose tags lack
PatientID, the walk fails with an error naming the field "PatientID" only; the
resource ID "st1" does not occur in the error, refuting the claim that the
error names both the resource ID and the field name. -/
theorem C2_counterexample :
    extract_annotated_studies srvMissingPid none = Except.error ⟨"PatientID"⟩ ∧
      containsSub "PatientID" "st1" = false :=
  ⟨rfl, rfl⟩

/-- C2 (amended): for every fetched resource on which a required tag field
(PatientID, PatientName, SOPInstanceUID) is absent, the walk fails with a
KeyError naming the missing field name (but not the resource ID), and the
error aborts the whole walk; the missing field is never silently defaulted. -/
theorem C2_amended_keyerror_names_field :
    (∀ (srv : Server) (ig : Option String) (st : String),
        "9999" ∈ srv.attachments st →
        (srv.studyInfo st).patientTags.lookup "PatientID" = none →
        processStudy srv ig st = Except.error ⟨"PatientID"⟩) ∧
    (∀ (srv : Server) (ig : Option String) (st pidRaw : String),
        "9999" ∈ srv.attachments st →
        (srv.studyInfo st).patientTags.lookup "PatientID" = some pidRaw →
        (srv.studyInfo st).patientTags.lookup "PatientName" = none →
        processStudy srv ig st = Except.error ⟨"PatientName"⟩) ∧
    (∀ (srv : Server) (pid pn : String) (uuids : List String) (i : String)
        (rest : List String),
        uuids.contains i = true →
        (srv.instanceTags i).lookup "SOPInstanceUID" = none →
        emitInstances srv pid pn uuids (i :: rest) =
          Except.error ⟨"SOPInstanceUID"⟩) ∧
    (∀ (srv : Server) (ig : Option String) (st : String) (rest : List String)
        (e : KeyError),
        processStudy srv ig st = Except.error e →
        walkStudies srv ig (st :: rest) = Except.error e) := by
  refine ⟨?_, ?_, ?_, ?_⟩
  · intro srv ig st h9 hm
    have hl : lookupTag (srv.studyInfo st).patientTags "PatientID" =
        Except.error ⟨"PatientID"⟩ := by
      unfold lookupTag
      rw [hm]
    simp only [processStudy, if_pos h9, hl]
  · intro srv ig st pidRaw h9 hp hm
    have hl1 : lookupTag (srv.studyInfo st).patientTags "PatientID" =
        Except.ok pidRaw := by
      unfold lookupTag
      rw [hp]
    have hl2 : lookupTag (srv.studyInfo st).patientTags "PatientName" =
        Except.error ⟨"PatientName"⟩ := by
      unfold lookupTag
      rw [hm]
    simp only [processStudy, if_pos h9, hl1, hl2]
  · intro srv pid pn uuids i rest hc hm
    have hl : lookupTag (srv.instanceTags i) "SOPInstanceUID" =
        Except.error ⟨"SOPInstanceUID"⟩ := by
      unfold lookupTag
      rw [hm]
    simp only [emitInstances, if_pos hc, hl]
  · intro srv ig st rest e hp
    simp only [walkStudies, hp]

/-- Witness for C2 (amended) on concrete servers each missing one required
field. -/
theorem C2_amended_witness :
    processStudy srvMissingPid none "st1" = Except.error ⟨"PatientID"⟩ ∧
      processStudy srvMissingPname none "st1" = Except.error ⟨"PatientName"⟩ ∧
      emitInstances srvMissingUid "p" "n" ["i1"] ["i1"] =
        Except.error ⟨"SOPInstanceUID"⟩ ∧
      walkStudies srvMissingPid none ["st1"] = Except.error ⟨"PatientID"⟩ := by
  refine ⟨?_, ?_, ?_, ?_⟩
  · exact C2_amended_keyerror_names_field.1 srvMissingPid none "st1"
      (by decide) rfl
  · exact C2_amended_keyerror_names_field.2.1 srvMissingPname none "st1" "pid"
      (by decide) rfl rfl
  · exact C2_amended_keyerror_names_field.2.2.1 srvMissingUid "p" "n" ["i1"] "i1" []
      (by decide) rfl
  · exact C2_amended_keyerror_names_field.2.2.2 srvMissingPid none "st1" []
      ⟨"PatientID"⟩
      (C2_amended_keyerror_names_field.1 srvMissingPid none "st1" (by decide) rfl)

/-- C4: if the exclusion string is set (nonempty) and is a case-insensitive
substring of the study's patient ID, the study is skipped and contributes no
MatchResults; with no exclusion string set, a study carrying the annotation
marker yields exactly one result per matching instance. -/
theorem C4_exclusion_skips_study :
    (∀ (srv : Server) (st s pidRaw pnameRaw : String),
        lookupTag (srv.studyInfo st).patientTags "PatientID" = Except.ok pidRaw →
        lookupTag (srv.studyInfo st).patientTags "PatientName" = Except.ok pnameRaw →
        s ≠ "" →
        containsSub (strLower (underscoreSpaces pidRaw)) (strLower s) = true →
        processStudy srv (some s) st = Except.ok []) ∧
    (∀ (srv : Server) (st : String) (ts : List MatchResult),
        "9999" ∈ srv.attachments st →
        processStudy srv none st = Except.ok ts →
        ts.length = (studyMatched srv st).length) := by
  constructor
  · intro srv st s pidRaw pnameRaw hpid hpname hne hsub
    unfold processStudy
    by_cases h9 : "9999" ∈ srv.attachments st
    · rw [if_pos h9, hpid, hpname]
      dsimp only
      have hig : ignoreMatches (some s) (underscoreSpaces pidRaw) = true := by
        simp [ignoreMatches, hne, hsub]
      rw [if_pos hig]
    · rw [if_neg h9]
  · intro srv st ts h9 h
    unfold processStudy at h
    rw [if_pos h9] at h
    cases h1 : lookupTag (srv.studyInfo st).patientTags "PatientID" with
    | error e => rw [h1] at h; exact absurd h (by simp)
    | ok pidRaw =>
      rw [h1] at h
      cases h2 : lookupTag (srv.studyInfo st).patientTags "PatientName" with
      | error e => rw [h2] at h; exact absurd h (by simp)
      | ok pnameRaw =>
        rw [h2] at h
        dsimp only at h
        have hig : ignoreMatches none (underscoreSpaces pidRaw) = false := rfl
        rw [hig] at h
        simp only [Bool.false_eq_true, if_false] at h
        have hfst := emitSeries_map_fst h
        have : (ts.map (fun t => t.1)).length =
            ((studyMatched srv st).map (uidOf srv)).length := by
          rw [hfst]
          rfl
        simpa using this

/-- Witness for C4 on the spec's example: PatientID "patient_anon_001" with
exclusion substring "anon" yields zero results, and without an exclusion
string the same study yields one result for its one matching instance. -/
theorem C4_exclusion_skips_study_witness :
    processStudy srvAnon (some "anon") "s1" = Except.ok [] ∧
      ([("u1", "patient_anon_001", "pn")] : List MatchResult).length =
        (studyMatched srvAnon "s1").length := by
  constructor
  · exact C4_exclusion_skips_study.1 srvAnon "s1" "anon" "patient_anon_001" "pn"
      rfl rfl (by decide) (by decide)
  · exact C4_exclusion_skips_study.2 srvAnon "s1" [("u1", "patient_anon_001", "pn")]
      (by decide) rfl

/-- C5: a study with no annotation marker contributes zero MatchResults and no
error; a study with a marker whose annotation set intersects none of its
series' instances also contributes zero MatchResults and no error (annotation
IDs matching no real instance are silently ignored). -/
theorem C5_no_marker_or_no_intersection :
    (∀ (srv : Server) (ig : Option String) (st : String),
        "9999" ∉ srv.attachments st → processStudy srv ig st = Except.ok []) ∧
    (∀ (srv : Server) (ig : Option String) (st pidRaw pnameRaw : String),
        lookupTag (srv.studyInfo st).patientTags "PatientID" = Except.ok pidRaw →
        lookupTag (srv.studyInfo st).patientTags "PatientName" = Except.ok pnameRaw →
        (∀ se ∈ (srv.studyInfo st).series, ∀ i ∈ srv.seriesInstances se,
            (annUuids srv st).contains i = false) →
        processStudy srv ig st = Except.ok []) := by
  constructor
  · intro srv ig st h9
    unfold processStudy
    rw [if_neg h9]
  · intro srv ig st pidRaw pnameRaw hpid hpname hno
    unfold processStudy
    by_cases h9 : "9999" ∈ srv.attachments st
    · rw [if_pos h9, hpid, hpname]
      dsimp only
      by_cases hig : ignoreMatches ig (underscoreSpaces pidRaw) = true
      · rw [if_pos hig]
      · rw [if_neg hig]
        exact emitSeries_no_match hno
    · rw [if_neg h9]

/-- Witness for C5: on `srvNoMatch`, study s1 has no marker and study s2 has a
marker with a disjoint annotation set; both contribute zero results. -/
theorem C5_no_marker_or_no_intersection_witness :
    processStudy srvNoMatch none "s1" = Except.ok [] ∧
      processStudy srvNoMatch none "s2" = Except.ok [] := by
  constructor
  · exact C5_no_marker_or_no_intersection.1 srvNoMatch none "s1" (by decide)
  · exact C5_no_marker_or_no_intersection.2 srvNoMatch none "s2" "pid2" "pn2"
      rfl rfl (by decide)

/-- C6: when the server data is a well-formed tree (no instance ID is listed
twice across all series listings) and SOPInstanceUIDs are injective across the
listed instances, no leaf identifier appears twice in the output of a single
walk. -/
theorem C6_no_duplicate_uid (srv : Server) (ig : Option String) (out : Lists3)
    (h1 : (globalVisited srv).Nodup)
    (h2 : ∀ i ∈ globalVisited srv, ∀ j ∈ globalVisited srv,
        uidOf srv i = uidOf srv j → i = j)
    (h3 : extract_annotated_studies srv ig = Except.ok out) :
    out.annotated_instances.Nodup := by
  rw [extract_eq_walkStudies] at h3
  cases hw : walkStudies srv ig srv.studies with
  | error e => rw [hw] at h3; exact absurd h3 (by simp [Except.map])
  | ok ts =>
    rw [hw] at h3
    simp only [Except.map, Except.ok.injEq] at h3
    obtain ⟨l, hsub, heq⟩ := walkStudies_map_fst hw
    have hout : out.annotated_instances = l.map (uidOf srv) := by
      rw [← h3, ← heq]
    rw [hout]
    have hlsub : l.Sublist (globalVisited srv) := hsub
    exact List.Nodup.map_on
      (fun x hx y hy => h2 x (hlsub.subset hx) y (hlsub.subset hy))
      (List.Nodup.sublist hlsub h1)

/-- Witness for C6 on the concrete server `srvS1`: the output leaf identifiers
["u1", "u2"] are pairwise distinct. -/
theorem C6_no_duplicate_uid_witness :
    (Lists3.mk ["u1", "u2"] ["pid1", "pid1"] ["pname1", "pname1"]).annotated_instances.Nodup :=
  C6_no_duplicate_uid srvS1 none
    (Lists3.mk ["u1", "u2"] ["pid1", "pid1"] ["pname1", "pname1"])
    (by decide) (by decide) rfl

/-- C7: the walk is deterministic — any two runs of the study loop against the
same injected fetch functions (the same `Server` snapshot) produce the same
outcome; there is no hidden state that could make two invocations differ. -/
theorem C7_walk_deterministic (srv : Server) (ig : Option String)
    (studies : List String) (r1 : Except KeyError (List MatchResult))
    (h1 : WalkFrom srv ig studies r1) :
    ∀ r2, WalkFrom srv ig studies r2 → r1 = r2 := by
  induction h1 with
  | nil =>
    intro r2 h2
    cases h2
    rfl
  | consErr hp =>
    intro r2 h2
    cases h2 with
    | consErr hp2 =>
      rw [hp] at hp2
      injection hp2 with he
      rw [he]
    | consOkErr hp2 _ =>
      rw [hp] at hp2
      exact absurd hp2 (by simp)
    | consOk hp2 _ =>
      rw [hp] at hp2
      exact absurd hp2 (by simp)
  | consOkErr hp _ ih =>
    intro r2 h2
    cases h2 with
    | consErr hp2 =>
      rw [hp] at hp2
      exact absurd hp2 (by simp)
    | consOkErr hp2 hrest2 =>
      exact ih _ hrest2
    | consOk hp2 hrest2 =>
      have hcontra := ih _ hrest2
      exact absurd hcontra (by simp)
  | consOk hp _ ih =>
    intro r2 h2
    cases h2 with
    | consErr hp2 =>
      rw [hp] at hp2
      exact absurd hp2 (by simp)
    | consOkErr hp2 hrest2 =>
      have hcontra := ih _ hrest2
      exact absurd hcontra (by simp)
    | consOk hp2 hrest2 =>
      rw [hp] at hp2
      injection hp2 with hts
      have hus := ih _ hrest2
      injection hus with hus2
      rw [hts, hus2]

/-- Witness for C7: two independent runs over `srvSpaces` (one by an explicit
derivation, one through the code) agree. -/
theorem C7_walk_deterministic_witness :
    (Except.ok [("u1", "A_B", "N_M")] : Except KeyError (List MatchResult)) =
      walkStudies srvSpaces none ["s1"] := by
  have hp : processStudy srvSpaces none "s1" =
      Except.ok [("u1", "A_B", "N_M")] := rfl
  have d1 : WalkFrom srvSpaces none ["s1"]
      (Except.ok ([("u1", "A_B", "N_M")] ++ [])) :=
    WalkFrom.consOk hp WalkFrom.nil
  exact C7_walk_deterministic srvSpaces none ["s1"] _ d1 _
    (walkFrom_total srvSpaces none ["s1"])

/-- C9: the walker returns three sequences of equal length, aligned
index-wise — the k-th elements of the three lists are the components of the
k-th emitted MatchResult. -/
theorem C9_three_lists_aligned (srv : Server) (ig : Option String) (out : Lists3)
    (ts : List MatchResult)
    (h1 : extract_annotated_studies srv ig = Except.ok out)
    (h2 : walkStudies srv ig srv.studies = Except.ok ts) :
    out.annotated_instances.length = ts.length ∧
      out.patient_ids.length = ts.length ∧
      out.patient_names.length = ts.length ∧
      ∀ k, k < ts.length →
        (out.annotated_instances.getD k "", out.patient_ids.getD k "",
          out.patient_names.getD k "") = ts.getD k ("", "", "") := by
  rw [extract_eq_walkStudies, h2] at h1
  simp only [Except.map, Except.ok.injEq] at h1
  subst h1
  refine ⟨by simp, by simp, by simp, ?_⟩
  intro k hk
  have hk1 : k < (ts.map (fun t => t.1)).length := by simpa using hk
  have hk2 : k < (ts.map (fun t => t.2.1)).length := by simpa using hk
  have hk3 : k < (ts.map (fun t => t.2.2)).length := by simpa using hk
  simp only [List.getD_eq_getElem?_getD, List.getElem?_map,
    List.getElem?_eq_getElem hk, Option.map_some', Option.getD_some]

/-- Witness for C9 on `srvS1`: the three output lists have length 2 and their
k-th entries recombine into the k-th MatchResult. -/
theorem C9_three_lists_aligned_witness :
    (Lists3.mk ["u1", "u2"] ["pid1", "pid1"] ["pname1", "pname1"]).annotated_instances.length =
        ([("u1", "pid1", "pname1"), ("u2", "pid1", "pname1")] : List MatchResult).length ∧
      (Lists3.mk ["u1", "u2"] ["pid1", "pid1"] ["pname1", "pname1"]).patient_ids.length =
        ([("u1", "pid1", "pname1"), ("u2", "pid1", "pname1")] : List MatchResult).length ∧
      (Lists3.mk ["u1", "u2"] ["pid1", "pid1"] ["pname1", "pname1"]).patient_names.length =
        ([("u1", "pid1", "pname1"), ("u2", "pid1", "pname1")] : List MatchResult).length ∧
      ∀ k, k < ([("u1", "pid1", "pname1"), ("u2", "pid1", "pname1")] : List MatchResult).length →
        ((Lists3.mk ["u1", "u2"] ["pid1", "pid1"] ["pname1", "pname1"]).annotated_instances.getD k "",
          (Lists3.mk ["u1", "u2"] ["pid1", "pid1"] ["pname1", "pname1"]).patient_ids.getD k "",
          (Lists3.mk ["u1", "u2"] ["pid1", "pid1"] ["pname1", "pname1"]).patient_names.getD k "") =
          ([("u1", "pid1", "pname1"), ("u2", "pid1", "pname1")] : List MatchResult).getD k ("", "", "") :=
  C9_three_lists_aligned srvS1 none
    (Lists3.mk ["u1", "u2"] ["pid1", "pid1"] ["pname1", "pname1"])
    [("u1", "pid1", "pname1"), ("u2", "pid1", "pname1")] rfl rfl

/-- C10: every emitted MatchResult carries the fetched PatientID and
PatientName with each space replaced by an underscore, and the exclusion test
is applied to the underscore-replaced PatientID. -/
theorem C10_underscored_tags (srv : Server) (ig : Option String)
    (st pidRaw pnameRaw : String) (ts : List MatchResult)
    (hpid : lookupTag (srv.studyInfo st).patientTags "PatientID" = Except.ok pidRaw)
    (hpname : lookupTag (srv.studyInfo st).patientTags "PatientName" = Except.ok pnameRaw)
    (h : processStudy srv ig st = Except.ok ts) :
    (∀ t ∈ ts, t.2.1 = underscoreSpaces pidRaw ∧ t.2.2 = underscoreSpaces pnameRaw) ∧
      (ignoreMatches ig (underscoreSpaces pidRaw) = true → ts = []) := by
  unfold processStudy at h
  by_cases h9 : "9999" ∈ srv.attachments st
  · rw [if_pos h9, hpid, hpname] at h
    dsimp only at h
    cases hig : ignoreMatches ig (underscoreSpaces pidRaw) with
    | true =>
      rw [hig] at h
      simp only [if_true] at h
      cases h
      exact ⟨by simp, fun _ => rfl⟩
    | false =>
      rw [hig] at h
      simp only [Bool.false_eq_true, if_false] at h
      refine ⟨emitSeries_snd h, ?_⟩
      intro hcontra
      exact absurd hcontra (by simp)
  · rw [if_neg h9] at h
    cases h
    exact ⟨by simp, fun _ => rfl⟩

/-- Witness for C10 on `srvSpaces`: PatientID "A B" and PatientName "N M" are
emitted as "A_B" and "N_M". -/
theorem C10_underscored_tags_witness :
    (∀ t ∈ ([("u1", "A_B", "N_M")] : List MatchResult),
        t.2.1 = underscoreSpaces "A B" ∧ t.2.2 = underscoreSpaces "N M") ∧
      (ignoreMatches none (underscoreSpaces "A B") = true →
        ([("u1", "A_B", "N_M")] : List MatchResult) = []) :=
  C10_underscored_tags srvSpaces none "s1" "A B" "N M" [("u1", "A_B", "N_M")]
    rfl rfl rfl

end OrthancUtils
